import Mathlib

/-!
Verification of the employee-register component
(src/src/components/register.tsx): district resolution for the postal
lookup, the pincode lookup guard, the cascading state/district selector,
the employee-id validation schema, and the local-storage registration
store.  Each definition is a shallow embedding of the corresponding
TypeScript, with doc comments pointing at the source lines it models.
-/

namespace Register

/-- ASCII model of JavaScript `toLowerCase` on a single character.  The
source calls `.toLowerCase()` on district names; all inputs of interest
are ASCII, so only the A-Z range (code points 65-90) is mapped down. -/
def asciiLower (c : Char) : Char :=
  if 65 ≤ c.toNat ∧ c.toNat ≤ 90 then Char.ofNat (c.toNat + 32) else c

/-- Model of the JavaScript string method `toLowerCase` (ASCII range). -/
def jsToLower (s : String) : String := String.mk (s.data.map asciiLower)

/-- Boolean prefix test on character lists (helper for the substring
test below). -/
def charsLead : List Char → List Char → Bool
  | [], _ => true
  | _ :: _, [] => false
  | a :: as, b :: bs => a == b && charsLead as bs

/-- Boolean contiguous-substring test on character lists, modelling the
JavaScript string method `includes`. -/
def charsSub (p : List Char) : List Char → Bool
  | [] => charsLead p []
  | c :: rest => charsLead p (c :: rest) || charsSub p rest

/-- Model of `s.includes(pat)` for JavaScript strings. -/
def jsIncludes (s pat : String) : Bool := charsSub pat.data s.data

/-- The per-candidate test of the `districts.find(...)` callback at
register.tsx lines 199-204: `d.toLowerCase() === District.toLowerCase()
|| d.toLowerCase().includes(District.toLowerCase()) ||
District.toLowerCase().includes(d.toLowerCase())`.  Note this is a
single disjunction evaluated per candidate, not a precedence scan over
the whole candidate set. -/
def tierMatch (d reported : String) : Bool :=
  jsToLower d == jsToLower reported
    || jsIncludes (jsToLower d) (jsToLower reported)
    || jsIncludes (jsToLower reported) (jsToLower d)

/-- The `districts.find(...)` call at register.tsx line 199: first
candidate, in list order, satisfying `tierMatch`. -/
def findMatch (districts : List String) (reported : String) : Option String :=
  districts.find? (fun d => tierMatch d reported)

/-- The value assigned by `setSelectedDistrict(match || District)` at
register.tsx line 205: `undefined` (no match) and the empty string are
falsy in JavaScript, so both fall back to the raw reported district. -/
def resolveDistrict (districts : List String) (reported : String) : String :=
  match findMatch districts reported with
  | some m => if m = "" then reported else m
  | none => reported

/-- The empty substring is contained in every string. -/
theorem charsSub_nil (l : List Char) : charsSub [] l = true := by
  cases l <;> simp [charsSub, charsLead]

/-- find? returns the marked element when everything before it tests
false and it tests true. -/
theorem findAfterMisses {α : Type} (p : α → Bool) :
    ∀ (pre : List α) (c : α) (post : List α),
      (∀ e ∈ pre, p e = false) → p c = true →
      (pre ++ c :: post).find? p = some c := by
  intro pre c post hpre hc
  induction pre with
  | nil => simp [List.find?_cons_of_pos, hc]
  | cons x xs ih =>
    have hx : p x = false := hpre x (by simp)
    rw [List.cons_append, List.find?_cons_of_neg _ (by simp [hx])]
    exact ih (fun e he => hpre e (by simp [he]))

/-- C1 (counterexample).  The claim says a case-insensitively exactly
equal candidate is always returned (tier 1 beats containment matches on
earlier-ordered candidates).  With candidate set
["Bangalore Urban", "Bangalore"] and reported name "Bangalore", the set
contains the case-insensitively equal candidate "Bangalore", yet the
code returns the earlier containment match "Bangalore Urban". -/
theorem tierOneNotPreferred_cex :
    (∃ cand ∈ (["Bangalore Urban", "Bangalore"] : List String),
        jsToLower cand = jsToLower "Bangalore")
      ∧ resolveDistrict ["Bangalore Urban", "Bangalore"] "Bangalore"
          = "Bangalore Urban"
      ∧ jsToLower "Bangalore Urban" ≠ jsToLower "Bangalore" := by
  refine ⟨⟨"Bangalore", by decide, by decide⟩, by decide, by decide⟩

/-- C1 (amended).  Resolution is a single left-to-right scan returning
the first candidate that satisfies any of the three conditions
(case-insensitive equality, candidate-contains-name, or
name-contains-candidate); exact equality is not preferred over an
earlier-ordered containment match.  Reported "Bangalore" with candidate
set ["Bangalore Urban"] resolves to "Bangalore Urban". -/
theorem firstAnyTierWins :
    (∀ (reported : String) (pre : List String) (c : String)
        (post : List String),
        (∀ e ∈ pre, tierMatch e reported = false) →
        tierMatch c reported = true → c ≠ "" →
        resolveDistrict (pre ++ c :: post) reported = c)
      ∧ resolveDistrict ["Bangalore Urban"] "Bangalore" = "Bangalore Urban" := by
  constructor
  · intro reported pre c post hpre hc hcne
    unfold resolveDistrict findMatch
    rw [findAfterMisses _ pre c post hpre hc]
    exact if_neg hcne
  · decide

/-- Witness for `firstAnyTierWins` at a concrete input. -/
theorem firstAnyTierWins_w :
    (∀ e ∈ ([] : List String), tierMatch e "Bangalore" = false)
      ∧ tierMatch "Bangalore Urban" "Bangalore" = true
      ∧ ("Bangalore Urban" : String) ≠ ""
      ∧ resolveDistrict ([] ++ "Bangalore Urban" :: []) "Bangalore"
          = "Bangalore Urban" := by
  refine ⟨by decide, by decide, by decide, ?_⟩
  exact firstAnyTierWins.1 "Bangalore" [] "Bangalore Urban" []
    (by decide) (by decide) (by decide)

/-- C7.  When no candidate matches under any of the three conditions,
resolution returns the raw reported district name unchanged. -/
theorem noMatchFallback (districts : List String) (reported : String)
    (h : ∀ c ∈ districts, tierMatch c reported = false) :
    resolveDistrict districts reported = reported := by
  have hnone : findMatch districts reported = none := by
    unfold findMatch
    apply List.find?_eq_none.mpr
    intro x hx
    simp [h x hx]
  unfold resolveDistrict
  rw [hnone]

/-- Witness for `noMatchFallback` at a concrete input. -/
theorem noMatchFallback_w :
    (∀ c ∈ (["Mysore"] : List String), tierMatch c "Zzz" = false)
      ∧ resolveDistrict ["Mysore"] "Zzz" = "Zzz" :=
  ⟨by decide, noMatchFallback ["Mysore"] "Zzz" (by decide)⟩

/-- C10.  A reported empty-string district name containment-matches
every candidate (the empty string is a substring of everything), so
resolution returns the first candidate of the state's district list
(district names in the index are non-empty). -/
theorem emptyReportedFirstCandidate (c : String) (cs : List String)
    (hc : c ≠ "") : resolveDistrict (c :: cs) "" = c := by
  have ht : tierMatch c "" = true := by
    have hsub : jsIncludes (jsToLower c) (jsToLower "") = true := by
      have : (jsToLower "").data = [] := rfl
      simp [jsIncludes, this, charsSub_nil]
    simp [tierMatch, hsub]
  simp [resolveDistrict, findMatch, List.find?_cons, ht, hc]

/-- Witness for `emptyReportedFirstCandidate` at a concrete input. -/
theorem emptyReportedFirstCandidate_w :
    ("Bangalore Urban" : String) ≠ ""
      ∧ resolveDistrict ["Bangalore Urban", "Bangalore Rural"] ""
          = "Bangalore Urban" :=
  ⟨by decide,
    emptyReportedFirstCandidate "Bangalore Urban" ["Bangalore Rural"]
      (by decide)⟩

/-- Decimal-digit test on a character; 48 and 57 are the code points of
the characters 0 and 9 (the regex class [0-9]). -/
def isDigit (c : Char) : Bool := decide (48 ≤ c.toNat ∧ c.toNat ≤ 57)

/-- Numeric value of a decimal digit character. -/
def digitVal (c : Char) : Nat := c.toNat - 48

/-- Character test for the name regex class [A-Za-z.\s] of
`userSchema.name` (register.tsx line 27); the JavaScript class \s is
modelled over its ASCII members. -/
def isNameChar (c : Char) : Bool :=
  decide (65 ≤ c.toNat ∧ c.toNat ≤ 90)
    || decide (97 ≤ c.toNat ∧ c.toNat ≤ 122)
    || c == '.'
    || c == ' ' || c == '\t' || c == '\n' || c == '\r'
    || c == Char.ofNat 11 || c == Char.ofNat 12

/-- The `userSchema.name` rule (register.tsx lines 23-27): 1 to 50
characters, letters, dots and whitespace only. -/
def validName (s : String) : Bool :=
  decide (1 ≤ s.length) && decide (s.length ≤ 50) && s.data.all isNameChar

/-- The `userSchema.pincode` rule (register.tsx lines 38-42): exactly 6
characters, all numeric. -/
def validPincode (s : String) : Bool :=
  decide (s.length = 6) && s.data.all isDigit

/-- The `userSchema.id` regular expression (register.tsx line 46):
ZMR followed by one of the alternatives 00[1-9], 0[1-9][0-9] or
[1-4][0-9][0-9].  Code points: 90 = Z, 77 = M, 82 = R, 48 = 0, 49 = 1,
52 = 4, 57 = 9. -/
def idRegexChars : List Char → Bool
  | [z, m, r, a, b, c] =>
    z == 'Z' && m == 'M' && r == 'R'
      && ((decide (a.toNat = 48) && decide (b.toNat = 48)
            && decide (49 ≤ c.toNat ∧ c.toNat ≤ 57))
        || (decide (a.toNat = 48)
            && decide (49 ≤ b.toNat ∧ b.toNat ≤ 57) && isDigit c)
        || (decide (49 ≤ a.toNat ∧ a.toNat ≤ 52) && isDigit b && isDigit c))
  | _ => false

/-- The employee-id validator: the anchored regex applied to the whole
string. -/
def matchesIdRegex (s : String) : Bool := idRegexChars s.data

/-- The data carried by the form on submission, in the field order of
`userSchema` (register.tsx lines 22-47). -/
structure FormData where
  name : String
  address : String
  state : String
  district : String
  pincode : String
  id : String
deriving DecidableEq, Repr

/-- Full `userSchema` validation: every field rule must pass (zod
object of the six field schemas, register.tsx lines 22-47). -/
def validFormData (d : FormData) : Bool :=
  validName d.name
    && decide (1 ≤ d.address.length) && decide (d.address.length ≤ 500)
    && decide (1 ≤ d.state.length)
    && decide (1 ≤ d.district.length)
    && validPincode d.pincode
    && matchesIdRegex d.id

/-- The component state relevant to the cascade and the postal lookup:
the `selectedState` / `selectedDistrict` React state (the mirrored
react-hook-form values follow them via `setValue` and are not modelled
separately), the watched `pincode` field, the pincodes of outstanding
`fetch` calls, and the `(State, District)` pairs captured by scheduled
500ms `setTimeout` district assignments (register.tsx lines 196-208). -/
structure UIState where
  selState : String
  selDistrict : String
  pincode : String
  inflight : List String
  pending : List (String × String)
deriving DecidableEq, Repr

/-- The events that touch this state: the synchronous handlers
`handleStateChange`, `handleDistrictChange`, `handleClear`, an edit of
the pincode field, the arrival of a postal-lookup response (successful
or not), and the firing of a scheduled district assignment. -/
inductive Event where
  | stateChange (v : String)
  | districtChange (v : String)
  | clear
  | pincodeChange (p : String)
  | respSuccess (pin st dist : String)
  | respFailure (pin : String)
  | fireDelayed
deriving DecidableEq, Repr

/-- State update per event, translated from register.tsx.  `idx` is the
`districtsData` mapping (its JSON content is not part of the sources, so
it is a parameter); the code's `districtsData[State] || []` default is
the instantiation's responsibility.
  * `stateChange` (lines 70-76): sets the state, clears the district.
  * `districtChange` (lines 78-82): sets the district.
  * `clear` (lines 84-90): `reset()` restores all form defaults
    (pincode becomes ""), state and district are cleared; scheduled
    timeouts and in-flight fetches are NOT cancelled.
  * `pincodeChange` (lines 183-187): the effect returns early unless the
    value has length exactly 6 (a length check only), else it issues one
    fetch for that pincode.
  * `respSuccess` (lines 191-208): on `Status === "Success"` the state is
    set immediately and a 500ms timeout is scheduled that will later
    assign the resolved district; the response's originating pincode is
    not compared with the current input.
  * `respFailure` (lines 211-213): logged only, nothing changes.
  * `fireDelayed` (lines 196-208): the oldest scheduled assignment runs,
    assigning `match || District` over `districtsData[State] || []`. -/
def stepE (idx : String → List String) (s : UIState) : Event → UIState
  | .stateChange v => { s with selState := v, selDistrict := "" }
  | .districtChange v => { s with selDistrict := v }
  | .clear => { s with selState := "", selDistrict := "", pincode := "" }
  | .pincodeChange p =>
      { s with pincode := p,
               inflight :=
                 if p.length = 6 then s.inflight ++ [p] else s.inflight }
  | .respSuccess pin st dist =>
      { s with selState := st,
               inflight := s.inflight.erase pin,
               pending := s.pending ++ [(st, dist)] }
  | .respFailure pin => { s with inflight := s.inflight.erase pin }
  | .fireDelayed =>
      match s.pending with
      | [] => s
      | (st, dist) :: rest =>
          { s with selDistrict := resolveDistrict (idx st) dist,
                   pending := rest }

/-- Which events can occur in a given state: the district selector is
disabled while no state is selected (register.tsx line 383); a response
can only arrive for a pincode that was actually fetched; a delayed
assignment can only fire if one is scheduled. -/
def enabled (s : UIState) : Event → Bool
  | .stateChange _ => true
  | .districtChange _ => s.selState != ""
  | .clear => true
  | .pincodeChange _ => true
  | .respSuccess pin _ _ => s.inflight.contains pin
  | .respFailure pin => s.inflight.contains pin
  | .fireDelayed => !s.pending.isEmpty

/-- Initial component state: all form defaults empty, nothing pending. -/
def initState : UIState := ⟨"", "", "", [], []⟩

/-- States reachable from the initial state through enabled events. -/
inductive Reachable (idx : String → List String) : UIState → Prop where
  | init : Reachable idx initState
  | step {s : UIState} (e : Event) : Reachable idx s →
      enabled s e = true → Reachable idx (stepE idx s e)

/-- The synchronous user-driven events: everything except the two
asynchronous callbacks (response arrival, delayed assignment). -/
def userEvent : Event → Bool
  | .stateChange _ => true
  | .districtChange _ => true
  | .clear => true
  | .pincodeChange _ => true
  | .respSuccess _ _ _ => false
  | .respFailure _ => false
  | .fireDelayed => false

/-- States reachable using only synchronous user-driven events. -/
inductive ReachableU (idx : String → List String) : UIState → Prop where
  | init : ReachableU idx initState
  | step {s : UIState} (e : Event) : ReachableU idx s →
      enabled s e = true → userEvent e = true →
      ReachableU idx (stepE idx s e)

/-- A concrete (empty) district index used to instantiate traces. -/
def emptyIndex : String → List String := fun _ => []

/-- C6.  `handleStateChange` always sets the selected state to the
chosen value and unconditionally resets the selected district to empty,
whatever the prior state. -/
theorem stateChangeResetsDistrict :
    ∀ (idx : String → List String) (s : UIState) (v : String),
      (stepE idx s (Event.stateChange v)).selState = v
        ∧ (stepE idx s (Event.stateChange v)).selDistrict = "" :=
  fun _ _ _ => ⟨rfl, rfl⟩

/-- C2 (amended).  The postal-lookup effect issues a fetch exactly when
the pincode input has length 6 — a length-only guard, with no check that
the characters are digits.  "560032" issues exactly one lookup and
"56032" issues none. -/
theorem lookupIssuedIffLengthSix :
    (∀ (idx : String → List String) (s : UIState) (p : String),
        ((stepE idx s (Event.pincodeChange p)).inflight).length
          = s.inflight.length + (if p.length = 6 then 1 else 0))
      ∧ ((stepE emptyIndex initState
            (Event.pincodeChange "560032")).inflight).length = 1
      ∧ ((stepE emptyIndex initState
            (Event.pincodeChange "56032")).inflight).length = 0 := by
  refine ⟨?_, by decide, by decide⟩
  intro idx s p
  simp only [stepE]
  by_cases h : p.length = 6
  · simp [h]
  · simp [h]

/-- C2 (counterexample).  "abcdef" is not a 6-digit numeric pincode,
yet the effect's length-only guard lets it issue a lookup. -/
theorem lookupIssuedNonNumeric_cex :
    validPincode "abcdef" = false
      ∧ ((stepE emptyIndex initState
            (Event.pincodeChange "abcdef")).inflight).length = 1 :=
  ⟨by decide, by decide⟩

/-- C8 (counterexample).  The delayed district assignment can fire after
a clear: pincode "560032" is entered, the lookup responds with state
"Karnataka" and district "Bangalore" (scheduling the 500ms assignment),
the user clears the form, then the timeout fires — leaving district
"Bangalore" selected while the state selection is empty. -/
theorem delayedAssignBreaksCascade_cex :
    Reachable emptyIndex ⟨"", "Bangalore", "", [], []⟩
      ∧ ("Bangalore" : String) ≠ "" := by
  constructor
  · have h0 : Reachable emptyIndex initState := Reachable.init
    have h1 := Reachable.step (Event.pincodeChange "560032") h0 rfl
    have h2 := Reachable.step
      (Event.respSuccess "560032" "Karnataka" "Bangalore") h1 rfl
    have h3 := Reachable.step Event.clear h2 rfl
    have h4 := Reachable.step Event.fireDelayed h3 rfl
    exact h4
  · decide

/-- C8 (amended).  Restricted to the synchronous user-driven operations
(state change, district change, clear, pincode edits) the cascade
invariant holds: an empty state selection always comes with an empty
district selection.  The postal lookup's delayed district assignment
violates it, as the counterexample trace shows. -/
theorem cascadeInvariantUser :
    ∀ (idx : String → List String) (s : UIState), ReachableU idx s →
      s.selState = "" → s.selDistrict = "" := by
  intro idx s h
  induction h with
  | init => intro _; rfl
  | step e hr hen hu ih =>
    cases e with
    | stateChange v => intro _; rfl
    | districtChange v =>
      intro hst
      simp only [enabled, bne_iff_ne, ne_eq] at hen
      exact absurd hst hen
    | clear => intro _; rfl
    | pincodeChange p => intro hst; exact ih hst
    | respSuccess pin st dist => simp [userEvent] at hu
    | respFailure pin => simp [userEvent] at hu
    | fireDelayed => simp [userEvent] at hu

/-- Witness for `cascadeInvariantUser` on a concrete two-step trace. -/
theorem cascadeInvariantUser_w :
    ((stepE emptyIndex
        (stepE emptyIndex initState (Event.stateChange "Karnataka"))
        Event.clear).selDistrict) = "" :=
  cascadeInvariantUser emptyIndex _
    (ReachableU.step Event.clear
      (ReachableU.step (Event.stateChange "Karnataka")
        ReachableU.init rfl rfl) rfl rfl) rfl

/-- C9.  The claim (and the spec, sections 5 and 7) require a stale
resolution to be discarded by comparing its originating pincode with the
current input; the code performs no such comparison.  Concretely: the
user enters "560032" (lookup issued), then changes the pincode to
"110001" (second lookup issued); when the first lookup's response
arrives it is applied unconditionally, so the state selection becomes
"Karnataka" even though the current pincode input is "110001". -/
theorem staleLookupApplied :
    Reachable emptyIndex
        ⟨"Karnataka", "", "110001", ["110001"], [("Karnataka", "Bangalore")]⟩
      ∧ ("110001" : String) ≠ "560032" := by
  constructor
  · have h0 : Reachable emptyIndex initState := Reachable.init
    have h1 := Reachable.step (Event.pincodeChange "560032") h0 rfl
    have h2 := Reachable.step (Event.pincodeChange "110001") h1 rfl
    have h3 := Reachable.step
      (Event.respSuccess "560032" "Karnataka" "Bangalore") h2 rfl
    exact h3
  · decide

/-- The claim's characterisation of valid employee ids: the fixed
prefix ZMR followed by three digit characters whose three-digit numeric
value lies between 1 (written 001) and 499. -/
def employeeIdSpec (s : String) : Prop :=
  ∃ a b c : Char, isDigit a = true ∧ isDigit b = true ∧ isDigit c = true
    ∧ s.data = ['Z', 'M', 'R', a, b, c]
    ∧ 1 ≤ 100 * digitVal a + 10 * digitVal b + digitVal c
    ∧ 100 * digitVal a + 10 * digitVal b + digitVal c ≤ 499

/-- C4.  The employee-id regex accepts exactly the strings of the form
ZMR followed by a 3-digit suffix in the range 001-499; in particular
"ZMR250" passes while "ZMR500" and "ABC123" fail. -/
theorem employeeIdCharacterisation :
    (∀ s : String, matchesIdRegex s = true ↔ employeeIdSpec s)
      ∧ matchesIdRegex "ZMR250" = true
      ∧ matchesIdRegex "ZMR500" = false
      ∧ matchesIdRegex "ABC123" = false := by
  refine ⟨?_, by decide, by decide, by decide⟩
  intro s
  unfold matchesIdRegex employeeIdSpec
  generalize s.data = cs
  match cs with
  | [] => simp [idRegexChars]
  | [z] => simp [idRegexChars]
  | [z, m] => simp [idRegexChars]
  | [z, m, r] => simp [idRegexChars]
  | [z, m, r, a] => simp [idRegexChars]
  | [z, m, r, a, b] => simp [idRegexChars]
  | z :: m :: r :: a :: b :: c :: d :: l => simp [idRegexChars]
  | [z, m, r, a, b, c] =>
    simp only [idRegexChars, isDigit, digitVal, Bool.and_eq_true,
      Bool.or_eq_true, beq_iff_eq, decide_eq_true_eq, List.cons.injEq,
      and_true]
    constructor
    · rintro ⟨⟨⟨rfl, rfl⟩, rfl⟩, h⟩
      exact ⟨a, b, c, by omega, by omega, by omega,
        ⟨rfl, rfl, rfl, rfl, rfl, rfl⟩, by omega, by omega⟩
    · rintro ⟨a2, b2, c2, ha, hb, hc, ⟨rfl, rfl, rfl, rfl, rfl, rfl⟩,
        hlo, hhi⟩
      exact ⟨⟨⟨rfl, rfl⟩, rfl⟩, by omega⟩

/-- Witness for `employeeIdCharacterisation`: the characterisation
evaluated at the concrete id "ZMR250". -/
theorem employeeIdCharacterisation_w : employeeIdSpec "ZMR250" :=
  (employeeIdCharacterisation.1 "ZMR250").mp (by decide)

/-- JSON values, as produced by the JavaScript runtime's JSON.parse. -/
inductive Json where
  | null
  | bool (b : Bool)
  | num (n : Int)
  | str (s : String)
  | arr (elems : List Json)
  | obj (fields : List (String × Json))

/-- JSON whitespace skipping (space, tab, newline, carriage return). -/
def skipWs : List Char → List Char
  | c :: cs =>
    if c = ' ' ∨ c = '\t' ∨ c = '\n' ∨ c = '\r' then skipWs cs else c :: cs
  | [] => []

/-- Body of a JSON string literal after the opening quote, with the
common escapes (the \u escape of full JSON is not modelled). -/
def parseStringBody : Nat → List Char → List Char → Option (String × List Char)
  | 0, _, _ => none
  | _ + 1, [], _ => none
  | fuel + 1, c :: rest, acc =>
    if c = '"' then some (String.mk acc.reverse, rest)
    else if c = '\\' then
      match rest with
      | [] => none
      | e :: rest2 =>
        let ec : Option Char :=
          if e = '"' then some '"'
          else if e = '\\' then some '\\'
          else if e = '/' then some '/'
          else if e = 'n' then some '\n'
          else if e = 't' then some '\t'
          else if e = 'r' then some '\r'
          else if e = 'b' then some (Char.ofNat 8)
          else if e = 'f' then some (Char.ofNat 12)
          else none
        match ec with
        | some d => parseStringBody fuel rest2 (d :: acc)
        | none => none
    else parseStringBody fuel rest (c :: acc)

/-- Numeric value of a digit-character list. -/
def digitsToNat (ds : List Char) : Nat :=
  ds.foldl (fun a c => 10 * a + digitVal c) 0

/-- JSON integer literal, with optional leading minus (the fraction and
exponent parts of full JSON numbers are not modelled). -/
def parseNumber (cs : List Char) : Option (Int × List Char) :=
  let p : Bool × List Char :=
    match cs with
    | '-' :: r => (true, r)
    | _ => (false, cs)
  let ds := p.2.takeWhile isDigit
  let rest := p.2.dropWhile isDigit
  if ds.isEmpty then none
  else some (if p.1 then -(digitsToNat ds : Int) else (digitsToNat ds : Int), rest)

mutual

/-- Recursive-descent JSON value, with fuel bounding the recursion. -/
def parseValue : Nat → List Char → Option (Json × List Char)
  | 0, _ => none
  | fuel + 1, cs =>
    match skipWs cs with
    | [] => none
    | c :: rest =>
      if c = '"' then
        match parseStringBody (fuel + 1) rest [] with
        | some (s, r) => some (Json.str s, r)
        | none => none
      else if c = '[' then
        match skipWs rest with
        | ']' :: r2 => some (Json.arr [], r2)
        | _ =>
          match parseElems fuel rest with
          | some (xs, r) => some (Json.arr xs, r)
          | none => none
      else if c = Char.ofNat 123 then
        match skipWs rest with
        | d :: r2 =>
          if d = Char.ofNat 125 then some (Json.obj [], r2)
          else
            match parseMembers fuel rest with
            | some (fs, r) => some (Json.obj fs, r)
            | none => none
        | [] => none
      else if c = 't' then
        match rest with
        | 'r' :: 'u' :: 'e' :: r => some (Json.bool true, r)
        | _ => none
      else if c = 'f' then
        match rest with
        | 'a' :: 'l' :: 's' :: 'e' :: r => some (Json.bool false, r)
        | _ => none
      else if c = 'n' then
        match rest with
        | 'u' :: 'l' :: 'l' :: r => some (Json.null, r)
        | _ => none
      else
        match parseNumber (c :: rest) with
        | some (n, r) => some (Json.num n, r)
        | none => none

/-- Comma-separated array elements up to the closing bracket. -/
def parseElems : Nat → List Char → Option (List Json × List Char)
  | 0, _ => none
  | fuel + 1, cs =>
    match parseValue fuel cs with
    | none => none
    | some (v, r) =>
      match skipWs r with
      | ',' :: r2 =>
        match parseElems fuel r2 with
        | some (vs, r3) => some (v :: vs, r3)
        | none => none
      | ']' :: r2 => some ([v], r2)
      | _ => none

/-- Comma-separated object members up to the closing brace. -/
def parseMembers : Nat → List Char → Option (List (String × Json) × List Char)
  | 0, _ => none
  | fuel + 1, cs =>
    match skipWs cs with
    | '"' :: r =>
      match parseStringBody (fuel + 1) r [] with
      | none => none
      | some (k, r1) =>
        match skipWs r1 with
        | ':' :: r2 =>
          match parseValue fuel r2 with
          | none => none
          | some (v, r3) =>
            match skipWs r3 with
            | ',' :: r4 =>
              match parseMembers fuel r4 with
              | some (fs, r5) => some ((k, v) :: fs, r5)
              | none => none
            | d :: r4 =>
              if d = Char.ofNat 125 then some ([(k, v)], r4) else none
            | [] => none
        | _ => none
    | _ => none

end

/-- Model of the JavaScript runtime JSON.parse (on the grammar subset
above): `none` models a thrown SyntaxError.  The fuel is generous: each
recursion step consumes input. -/
def jsonParse (s : String) : Option Json :=
  match parseValue (2 * s.length + 2) s.data with
  | some (v, rest) => if skipWs rest = [] then some v else none
  | none => none

/-- Escape of one character inside a JSON string literal, as done by
JSON.stringify (other control characters, which stringify as \u
escapes, are not modelled). -/
def escapeJsonChar (c : Char) : String :=
  if c = '"' then "\\\""
  else if c = '\\' then "\\\\"
  else if c = '\n' then "\\n"
  else if c = '\t' then "\\t"
  else if c = '\r' then "\\r"
  else if c = Char.ofNat 8 then "\\b"
  else if c = Char.ofNat 12 then "\\f"
  else String.singleton c

/-- Escapes every character of a string for a JSON string literal. -/
def escapeString (s : String) : String :=
  String.join (s.data.map escapeJsonChar)

mutual

/-- Model of the JavaScript runtime JSON.stringify (no indentation
argument, as called at register.tsx line 126). -/
def stringifyJson : Json → String
  | .null => "null"
  | .bool true => "true"
  | .bool false => "false"
  | .num n => toString n
  | .str s => "\"" ++ escapeString s ++ "\""
  | .arr xs => "[" ++ stringifyListJson xs ++ "]"
  | .obj fs => "\x7b" ++ stringifyFieldsJson fs ++ "\x7d"

/-- Comma-separated serialisation of array elements. -/
def stringifyListJson : List Json → String
  | [] => ""
  | [x] => stringifyJson x
  | x :: y :: ys => stringifyJson x ++ "," ++ stringifyListJson (y :: ys)

/-- Comma-separated serialisation of object members. -/
def stringifyFieldsJson : List (String × Json) → String
  | [] => ""
  | [(k, v)] => "\"" ++ escapeString k ++ "\":" ++ stringifyJson v
  | (k, v) :: f :: fs =>
      "\"" ++ escapeString k ++ "\":" ++ stringifyJson v ++ ","
        ++ stringifyFieldsJson (f :: fs)

end

/-- The record built in `onSubmit` (register.tsx lines 109-117), in the
insertion order JSON.stringify preserves; the timestamp string produced
by `new Date().toISOString()` is a parameter. -/
def encodeRecord (d : FormData) (ts : String) : Json :=
  Json.obj
    [("name", Json.str d.name),
     ("employeeId", Json.str d.id),
     ("address", Json.str d.address),
     ("state", Json.str d.state),
     ("district", Json.str d.district),
     ("pincode", Json.str d.pincode),
     ("timestamp", Json.str ts)]

/-- The read step of `onSubmit` (register.tsx lines 119-120):
`const existingData = localStorage.getItem("employeeRegistrations");
 const registrations = existingData ? JSON.parse(existingData) : [];`
A missing key (`getItem` returns null) and the falsy empty string give
the empty collection; otherwise JSON.parse runs with no surrounding
try/catch, so a parse failure propagates as an exception (modelled as
`Except.error ()`), as does the `.push` TypeError when the parsed value
is not an array. -/
def loadRegistrations (stored : Option String) : Except Unit (List Json) :=
  match stored with
  | none => Except.ok []
  | some s =>
    if s = "" then Except.ok []
    else
      match jsonParse s with
      | none => Except.error ()
      | some (Json.arr xs) => Except.ok xs
      | some _ => Except.error ()

/-- The full read-push-write of `onSubmit` (register.tsx lines
119-127): read the stored collection, push the new record, stringify
and write back.  The result is the new stored string, or an error when
the read step threw. -/
def appendRegistration (stored : Option String) (d : FormData)
    (ts : String) : Except Unit String :=
  match loadRegistrations stored with
  | Except.error e => Except.error e
  | Except.ok xs =>
      Except.ok (stringifyJson (Json.arr (xs ++ [encodeRecord d ts])))

/-- A concrete registration whose fields all pass validation. -/
def sampleForm : FormData :=
  ⟨"John Doe", "12 Main Street", "Karnataka", "Bangalore Urban",
    "560032", "ZMR250"⟩

/-- String concatenation is associative. -/
theorem string_append_assoc (a b c : String) :
    a ++ b ++ c = a ++ (b ++ c) := by
  apply String.ext
  simp [String.data_append, List.append_assoc]

/-- Appending one element to a serialised array keeps the serialisation
of the previous elements verbatim as a prefix of the new body. -/
theorem stringifyList_append_one (xs : List Json) (r : Json) :
    stringifyListJson (xs ++ [r])
      = (if xs.isEmpty then "" else stringifyListJson xs ++ ",")
          ++ stringifyJson r := by
  induction xs with
  | nil =>
    show stringifyJson r = "" ++ stringifyJson r
    apply String.ext
    simp [String.data_append]
  | cons x xs ih =>
    cases xs with
    | nil => simp [stringifyListJson]
    | cons y ys =>
      have h3 : stringifyListJson ((x :: y :: ys) ++ [r])
          = stringifyJson x ++ ","
              ++ stringifyListJson ((y :: ys) ++ [r]) := rfl
      rw [h3, ih]
      simp [stringifyListJson, string_append_assoc]

/-- C3 (counterexample).  The claim says unparseable stored content
yields the empty collection; but "oops" is not valid JSON, and the read
step has no try/catch around JSON.parse, so it raises instead. -/
theorem corruptStoreRaises_cex :
    loadRegistrations (some "oops") = Except.error ()
      ∧ loadRegistrations (some "oops") ≠ Except.ok [] := by
  constructor
  · rfl
  · intro h
    have h2 : (Except.error () : Except Unit (List Json))
        = Except.ok [] := h
    exact Except.noConfusion h2

/-- C3 (amended).  A missing stored value (and the falsy empty string)
is treated as the empty collection, both on load and before appending;
but stored content that does not parse as JSON makes the load — and
hence the whole append — throw: the parse error propagates instead of
being treated as an empty collection. -/
theorem loadMissingEmpty_corruptRaises :
    loadRegistrations none = Except.ok []
      ∧ loadRegistrations (some "") = Except.ok []
      ∧ ∀ s : String, s ≠ "" → jsonParse s = none →
          loadRegistrations (some s) = Except.error ()
            ∧ ∀ (d : FormData) (ts : String),
                appendRegistration (some s) d ts = Except.error () := by
  refine ⟨rfl, rfl, ?_⟩
  intro s hs hp
  have hl : loadRegistrations (some s) = Except.error () := by
    simp only [loadRegistrations]
    rw [if_neg hs, hp]
  refine ⟨hl, ?_⟩
  intro d ts
  unfold appendRegistration
  rw [hl]

/-- Witness for `loadMissingEmpty_corruptRaises` at a concrete corrupt
store content. -/
theorem loadMissingEmpty_corruptRaises_w :
    ("oops" : String) ≠ "" ∧ jsonParse "oops" = none
      ∧ loadRegistrations (some "oops") = Except.error ()
      ∧ appendRegistration (some "oops") sampleForm "t"
          = Except.error () := by
  refine ⟨by decide, rfl, ?_, ?_⟩
  · exact (loadMissingEmpty_corruptRaises.2.2 "oops" (by decide) rfl).1
  · exact (loadMissingEmpty_corruptRaises.2.2 "oops" (by decide) rfl).2
      sampleForm "t"

/-- C5.  Submitting a record whose fields all pass validation appends
exactly one record: on a missing store the new store holds exactly the
one record, and on a store holding a serialised array the new store is
the serialisation of the old elements followed by the new record — the
collection grows by exactly one and the serialised form of every prior
element appears unchanged, in order, as a prefix of the new array
body. -/
theorem submitAppendsOne :
    (∀ (d : FormData) (ts : String), validFormData d = true →
        appendRegistration none d ts
          = Except.ok (stringifyJson (Json.arr [encodeRecord d ts])))
      ∧ ∀ (d : FormData) (ts s : String) (xs : List Json),
          validFormData d = true →
          jsonParse s = some (Json.arr xs) → s ≠ "" →
          appendRegistration (some s) d ts
              = Except.ok (stringifyJson
                  (Json.arr (xs ++ [encodeRecord d ts])))
            ∧ (xs ++ [encodeRecord d ts]).length = xs.length + 1
            ∧ stringifyListJson (xs ++ [encodeRecord d ts])
              = (if xs.isEmpty then "" else stringifyListJson xs ++ ",")
                  ++ stringifyJson (encodeRecord d ts) := by
  constructor
  · intro d ts _
    rfl
  · intro d ts s xs _ hp hs
    have hload : loadRegistrations (some s) = Except.ok xs := by
      simp only [loadRegistrations]
      rw [if_neg hs, hp]
    refine ⟨?_, by simp, stringifyList_append_one xs _⟩
    unfold appendRegistration
    rw [hload]

/-- Witness for `submitAppendsOne` at a concrete valid record and a
concrete stored collection. -/
theorem submitAppendsOne_w :
    validFormData sampleForm = true
      ∧ jsonParse "[]" = some (Json.arr [])
      ∧ ("[]" : String) ≠ ""
      ∧ appendRegistration (some "[]") sampleForm
            "2024-01-01T00:00:00.000Z"
          = Except.ok (stringifyJson (Json.arr
              [encodeRecord sampleForm "2024-01-01T00:00:00.000Z"])) := by
  refine ⟨by decide, rfl, by decide, ?_⟩
  exact (submitAppendsOne.2 sampleForm "2024-01-01T00:00:00.000Z" "[]" []
    (by decide) rfl (by decide)).1

end Register
